import Mathlib

/-!
# golte `render` package: the rendering bridge

A shallow embedding of `src/render/renderer.go` (`Renderer.Render` and the types it
uses) together with the properties of the bridge stated in the specification.

Conventions of the embedding

* A Go slice or map that may be `nil` is an `Option`: `none` is the nil value, `some l`
  a non-nil value with contents `l`.  A Go map is an association list (keys in a Go map
  are unique; a lookup returns the first binding).
* `http.ResponseWriter` is a recorder: the header map and the bytes written so far.
* `encoding/json` and `text/template` are library code.  Their behaviour is modelled
  on the values `Render` hands to them: `json.Encoder.Encode` marshals the whole value
  into a buffer, appends a newline and issues one write, or returns the marshalling
  error without writing; `Template.Execute` streams node by node into the writer.
* The script runtime (`*goja.Runtime`) is an abstract state `VM`; the exported script
  function `renderfile.Render` is a state transformer on it.
* `sync.Mutex` is a boolean; `Lock` on a held mutex does not return.
-/

namespace render

/-! ## Go values stored under `any` -/

/-- Dynamic Go values that a props map (`map[string]any`) can hold: `nil`, booleans,
integers, strings, `[]any`, `map[string]any`, and `unsupported`, standing for the
kinds `encoding/json` refuses (channels, functions, complex numbers). -/
inductive GoVal where
  | null
  | bool (b : Bool)
  | int (i : Int)
  | str (s : String)
  | slice (xs : List GoVal)
  | map (kvs : List (String × GoVal))
  | unsupported (kind : String)

/-- A value of the script runtime (`goja.Value`), opaque to the bridge. -/
structure Value where
  repr : String
  deriving DecidableEq, Repr

/-- Go `error` values that cross the bridge. -/
inductive GoError where
  /-- The script threw the value `v` (a `*goja.Exception`). -/
  | exception (v : Value)
  /-- Any other error returned by the script call. -/
  | generic (msg : String)
  /-- The tagged render error built from a thrown value. -/
  | renderError (v : Value)
  /-- The marshalling error `*json.UnsupportedTypeError`. -/
  | unsupportedType (kind : String)
  /-- The template error `template.ExecError`: the data has no field of that name. -/
  | execError (field : String)
  deriving DecidableEq, Repr

/-! ## Data model (`renderer.go` lines 104-131) -/

/-- Go `type result struct { Head string; Body string }`. -/
structure result where
  Head : String
  Body : String
  deriving DecidableEq, Repr

/-- Go `type Entry struct { Comp string; Props map[string]any }`. -/
structure Entry where
  Comp : String
  Props : Option (List (String × GoVal))

/-- The anonymous struct `struct { Client string; Css []string }` of the manifest. -/
structure ManifestEntry where
  Client : String
  Css : Option (List String)
  deriving DecidableEq, Repr

/-- The zero value of the manifest's element type. -/
def ManifestEntry.zero : ManifestEntry :=
  { Client := "", Css := none }

/-- Go `type renderfile struct { Render func(...) (result, error); Manifest map[string]struct{...} }`.
The script function runs inside the runtime, so it takes and returns the runtime state. -/
structure renderfile (VM : Type) where
  Render : VM → List Entry → VM × Except GoError result
  Manifest : List (String × ManifestEntry)

/-- Go `type responseEntry struct { File string; Props map[string]any; CSS []string }`. -/
structure responseEntry where
  File : String
  Props : Option (List (String × GoVal))
  CSS : Option (List String)

/-- Go map index expression `m[k]` on the manifest: the zero value on a miss. -/
def manifestIndex (m : List (String × ManifestEntry)) (k : String) : ManifestEntry :=
  (m.lookup k).getD ManifestEntry.zero

/-- Go `append(s, x)` on a possibly nil slice: the result is never nil. -/
def sliceAppend {α : Type} (s : Option (List α)) (x : α) : Option (List α) :=
  match s with
  | none => some [x]
  | some l => some (l ++ [x])

/-- The elements of a possibly nil slice. -/
def sliceElems {α : Type} (s : Option (List α)) : List α :=
  s.getD []

/-! ## `sync.Mutex` -/

/-- A mutex: `locked` tells whether some caller holds it. -/
structure Mutex where
  locked : Bool
  deriving DecidableEq, Repr

/-- Go `mtx.Lock()`: returns the held mutex when it was free; `none` when it is held
(the caller waits). -/
def Mutex.Lock (m : Mutex) : Option Mutex :=
  if m.locked then none else some { locked := true }

/-- Go `mtx.Unlock()`, called by the holder. -/
def Mutex.Unlock (_m : Mutex) : Mutex :=
  { locked := false }

/-! ## `http.ResponseWriter` -/

/-- The response under construction: header map and body bytes written so far. -/
structure ResponseWriter where
  header : List (String × String)
  body : String
  deriving DecidableEq, Repr

/-- Go `w.Header().Set(k, v)`: replaces any value stored under `k`. -/
def ResponseWriter.SetHeader (w : ResponseWriter) (k v : String) : ResponseWriter :=
  { w with header := (k, v) :: w.header.filter (fun p => p.1 != k) }

/-- Go `w.Header().Get(k)`. -/
def ResponseWriter.GetHeader (w : ResponseWriter) (k : String) : Option String :=
  w.header.lookup k

/-- Go `w.Write(bytes)`. -/
def ResponseWriter.Write (w : ResponseWriter) (s : String) : ResponseWriter :=
  { w with body := w.body ++ s }

/-! ## `text/template` on a `result` -/

/-- A parsed template restricted to what a page template over `result` uses: literal
text and field actions (written `.Name` between double braces). -/
inductive Node where
  | text (s : String)
  | field (name : String)
  deriving DecidableEq, Repr

/-- A parsed template: its node list. -/
abbrev Template := List Node

/-- Field lookup on the `result` struct, as the template engine does by reflection. -/
def result.lookupField (d : result) (name : String) : Option String :=
  if name = "Head" then some d.Head
  else if name = "Body" then some d.Body
  else none

/-- Go `tmpl.Execute(w, data)` of `text/template`: walks the nodes in order, writing each
node's output to `w` as it goes; a string field is printed as is (no escaping); the
first failing action stops the walk and its error is returned, what was written before
stays written. -/
def Template.Execute : Template → ResponseWriter → result → ResponseWriter × Option GoError
  | [], w, _ => (w, none)
  | Node.text s :: rest, w, d => Template.Execute rest (w.Write s) d
  | Node.field n :: rest, w, d =>
    match d.lookupField n with
    | some s => Template.Execute rest (w.Write s) d
    | none => (w, some (GoError.execError n))

/-- The text a node stands for when every field it names exists. -/
def Node.expand (d : result) : Node → String
  | Node.text s => s
  | Node.field n => (d.lookupField n).getD ""

/-- The text a template stands for when every field it names exists: the node texts in
order, each field replaced by the field's value as it is. -/
def Template.output (d : result) : Template → String
  | [] => ""
  | n :: rest => n.expand d ++ Template.output d rest

/-! ## `encoding/json` -/

/-- Lower-case hexadecimal digit. -/
def hexDigit (n : Nat) : Char :=
  if n < 10 then Char.ofNat (48 + n) else Char.ofNat (87 + n)

/-- The encoder's rendering of one character of a string (HTML escaping on, which is
the default of `json.NewEncoder`): quote and backslash are backslash-escaped, the
control characters get their short or `u00XX` form, `<`, `>`, `&` and U+2028, U+2029
are written as `uXXXX` escapes, every other character stands for itself. -/
def escapeChar (c : Char) : String :=
  let n := c.toNat
  if n = 34 then "\\\""
  else if n = 92 then "\\\\"
  else if n = 8 then "\\b"
  else if n = 12 then "\\f"
  else if n = 10 then "\\n"
  else if n = 13 then "\\r"
  else if n = 9 then "\\t"
  else if n < 32 ∨ n = 60 ∨ n = 62 ∨ n = 38 then
    "\\u00" ++ String.mk [hexDigit (n / 16), hexDigit (n % 16)]
  else if n = 8232 then "\\u2028"
  else if n = 8233 then "\\u2029"
  else String.mk [c]

/-- A JSON string literal. -/
def encodeString (s : String) : String :=
  "\"" ++ String.join (s.toList.map escapeChar) ++ "\""

/-- Lexicographic order on code points (the order of the UTF-8 bytes, by which the
encoder sorts map keys). -/
def keyLt : List Nat → List Nat → Bool
  | [], [] => false
  | [], _ :: _ => true
  | _ :: _, [] => false
  | a :: as, b :: bs => if a < b then true else if b < a then false else keyLt as bs

/-- Insertion of a keyed item into a key-sorted list. -/
def insertMember {β : Type} (p : String × β) : List (String × β) → List (String × β)
  | [] => [p]
  | q :: rest =>
    if keyLt (p.1.toList.map Char.toNat) (q.1.toList.map Char.toNat) then p :: q :: rest
    else q :: insertMember p rest

/-- Sorts keyed items by key. -/
def sortMembers {β : Type} (l : List (String × β)) : List (String × β) :=
  l.foldr insertMember []

/-- The encoded members up to the first one that failed, whose error is returned. -/
def collectMembers :
    List (String × Except GoError String) → Except GoError (List (String × String))
  | [] => Except.ok []
  | (_, Except.error e) :: _ => Except.error e
  | (k, Except.ok a) :: rest =>
    match collectMembers rest with
    | Except.ok b => Except.ok ((k, a) :: b)
    | Except.error e => Except.error e

/-- A JSON object from encoded members, in the order given. -/
def encodeObject (members : List (String × String)) : String :=
  "\x7b" ++ ",".intercalate (members.map (fun p => encodeString p.1 ++ ":" ++ p.2)) ++ "\x7d"

/-- A JSON array from encoded elements. -/
def encodeArray (elems : List String) : String :=
  "[" ++ ",".intercalate elems ++ "]"

mutual
/-- Marshalling of a dynamic value. A map is written with its keys sorted, and the
first value in that order that cannot be marshalled gives the error. -/
def marshalVal : GoVal → Except GoError String
  | GoVal.null => Except.ok "null"
  | GoVal.bool b => Except.ok (if b then "true" else "false")
  | GoVal.int i => Except.ok (toString i)
  | GoVal.str s => Except.ok (encodeString s)
  | GoVal.slice xs =>
    match marshalVals xs with
    | Except.ok ss => Except.ok (encodeArray ss)
    | Except.error e => Except.error e
  | GoVal.map kvs =>
    match collectMembers (sortMembers (marshalMembers kvs)) with
    | Except.ok ms => Except.ok (encodeObject ms)
    | Except.error e => Except.error e
  | GoVal.unsupported k => Except.error (GoError.unsupportedType k)
/-- Marshalling of the elements of a `[]any`, first error first. -/
def marshalVals : List GoVal → Except GoError (List String)
  | [] => Except.ok []
  | x :: xs =>
    match marshalVal x, marshalVals xs with
    | Except.ok a, Except.ok b => Except.ok (a :: b)
    | Except.error e, _ => Except.error e
    | _, Except.error e => Except.error e
/-- Marshalling of each value of a `map[string]any`, keys kept alongside. -/
def marshalMembers : List (String × GoVal) → List (String × Except GoError String)
  | [] => []
  | (k, x) :: xs => (k, marshalVal x) :: marshalMembers xs
end

/-- Marshalling of a `map[string]any` field: `null` for the nil map. -/
def marshalProps : Option (List (String × GoVal)) → Except GoError String
  | none => Except.ok "null"
  | some kvs => marshalVal (GoVal.map kvs)

/-- Marshalling of a `[]string` field: `null` for the nil slice. -/
def marshalStrings : Option (List String) → String
  | none => "null"
  | some l => encodeArray (l.map encodeString)

/-- Marshalling of a `responseEntry`: an object with the members `File`, `Props`, `CSS`
in declaration order (struct fields are not sorted). -/
def marshalEntry (e : responseEntry) : Except GoError String :=
  match marshalProps e.Props with
  | Except.ok p =>
    Except.ok (encodeObject
      [("File", encodeString e.File), ("Props", p), ("CSS", marshalStrings e.CSS)])
  | Except.error err => Except.error err

/-- Marshalling of the elements of a `[]responseEntry`, first error first. -/
def marshalEntries : List responseEntry → Except GoError (List String)
  | [] => Except.ok []
  | e :: es =>
    match marshalEntry e with
    | Except.error err => Except.error err
    | Except.ok s =>
      match marshalEntries es with
      | Except.ok ss => Except.ok (s :: ss)
      | Except.error err => Except.error err

/-- Marshalling of a `[]responseEntry`: `null` for the nil slice, else an array. -/
def marshalResp : Option (List responseEntry) → Except GoError String
  | none => Except.ok "null"
  | some es =>
    match marshalEntries es with
    | Except.ok ss => Except.ok (encodeArray ss)
    | Except.error err => Except.error err

/-- Go `json.NewEncoder(w).Encode(resp)`: marshals first; on success writes the encoding
followed by a newline, on failure writes nothing and returns the error. -/
def Encode (w : ResponseWriter) (resp : Option (List responseEntry)) :
    ResponseWriter × Option GoError :=
  match marshalResp resp with
  | Except.ok s => (w.Write (s ++ "\n"), none)
  | Except.error err => (w, some err)

/-! ## The renderer (`renderer.go` lines 17-23 and 63-102) -/

/-- Go `type Renderer struct`: the page template, the script runtime, the exported
script file, the error predicate exported by the script, and the lock. -/
structure Renderer (VM : Type) where
  template : Template
  vm : VM
  renderfile : renderfile VM
  isRenderError : Value → Bool
  mtx : Mutex

/-- Modelled from the spec: the method `tryConvToRenderError` is called by `Render`
(line 70) but defined in a file that is not part of the sources. The specification says:
the error is classified via the runtime's error predicate; if the predicate identifies
it as a render error it is tagged as such and returned distinctly; one classified
otherwise is returned unmodified. The predicate (line 21) takes a script value, so it
applies to the value carried by a script exception. -/
def Renderer.tryConvToRenderError {VM : Type} (r : Renderer VM) (err : GoError) : GoError :=
  match err with
  | GoError.exception v => if r.isRenderError v then GoError.renderError v else err
  | _ => err

/-- Modelled from the spec: whether the error predicate identifies the error as a render
error. The predicate takes a script value; only a script exception carries one. -/
def Renderer.classifiesAsRenderError {VM : Type} (r : Renderer VM) (err : GoError) : Bool :=
  match err with
  | GoError.exception v => r.isRenderError v
  | _ => false

/-- The calls `Render` makes. -/
inductive Event where
  | mtxLock
  | scriptRender
  | mtxUnlock
  | setContentType (v : String)
  | templateExecute
  | jsonEncode
  deriving DecidableEq, Repr

/-- What a returning `Render` call leaves behind: the renderer, the response, the
returned error (`none` is Go `nil`), and the calls it made in order, each paired with
the state of `r.mtx` once that call has returned. -/
structure RenderReturn (VM : Type) where
  r : Renderer VM
  w : ResponseWriter
  err : Option GoError
  trace : List (Event × Mutex)

/-- One iteration of the loop of lines 79-92. -/
def respStep (manifest : List (String × ManifestEntry))
    (resp : Option (List responseEntry)) (v : Entry) : Option (List responseEntry) :=
  let props := match v.Props with
    | none => some []
    | some p => some p
  let comp := manifestIndex manifest v.Comp
  sliceAppend resp { File := "/" ++ comp.Client, Props := props, CSS := comp.Css }

/-- Lines 78-92: `var resp []responseEntry` and the loop over `components`. -/
def buildResp (manifest : List (String × ManifestEntry)) (components : List Entry) :
    Option (List responseEntry) :=
  components.foldl (respStep manifest) none

/-- Go `func (r *Renderer) Render(w http.ResponseWriter, components []Entry, noreload bool) error`.
The result is `none` when the call does not return (it waits for the lock). -/
def Renderer.Render {VM : Type} (r : Renderer VM) (w : ResponseWriter)
    (components : List Entry) (noreload : Bool) : Option (RenderReturn VM) :=
  if !noreload then
    match r.mtx.Lock with
    | none => none
    | some held =>
      let out := r.renderfile.Render r.vm components
      let r1 : Renderer VM := { r with vm := out.1, mtx := held.Unlock }
      match out.2 with
      | Except.error err =>
        some { r := r1, w := w, err := some (r1.tryConvToRenderError err),
               trace := [(Event.mtxLock, held), (Event.scriptRender, held),
                         (Event.mtxUnlock, r1.mtx)] }
      | Except.ok res =>
        let w1 := w.SetHeader "Content-Type" "text/html; charset=utf-8"
        let ex := r1.template.Execute w1 res
        some { r := r1, w := ex.1, err := ex.2,
               trace := [(Event.mtxLock, held), (Event.scriptRender, held),
                         (Event.mtxUnlock, r1.mtx),
                         (Event.setContentType "text/html; charset=utf-8", r1.mtx),
                         (Event.templateExecute, r1.mtx)] }
  else
    let resp := buildResp r.renderfile.Manifest components
    let w1 := w.SetHeader "Content-Type" "application/json; charset=utf-8"
    let en := Encode w1 resp
    some { r := r, w := en.1, err := en.2,
           trace := [(Event.setContentType "application/json; charset=utf-8", r.mtx),
                     (Event.jsonEncode, r.mtx)] }

/-! ## Concurrent callers

Several `Render` calls run on one renderer, each from its own goroutine. A call is at
one of the program points below and carries its own arguments and locals; the renderer
is shared. A scheduler picks which call takes the next step. -/

/-- Program points of a `Render` call. -/
inductive PC where
  /-- Line 64: the call has started. -/
  | entry
  /-- Line 65: about to call `r.mtx.Lock()`, or waiting inside it. -/
  | atLock
  /-- Line 66: the lock is held and the script function is running. -/
  | inScript
  /-- Line 67: the script function has returned, about to call `r.mtx.Unlock()`. -/
  | atUnlock
  /-- Lines 69-75 or 78-101: building and writing the response. -/
  | formatting
  /-- The call has returned. -/
  | returned
  deriving DecidableEq, Repr

/-- One `Render` call in flight: its arguments (`w` holds the response as written so
far), its program point, the outcome of the script call once that has returned (the
locals `result, err` of line 66), and the error it returned once it has returned. -/
structure Call where
  w : ResponseWriter
  components : List Entry
  noreload : Bool
  pc : PC
  out : Option (Except GoError result)
  err : Option GoError

/-- A call that has just started. -/
def Call.start (w : ResponseWriter) (components : List Entry) (noreload : Bool) : Call :=
  { w := w, components := components, noreload := noreload, pc := PC.entry,
    out := none, err := none }

/-- The shared renderer together with the calls in flight. -/
structure System (VM : Type) where
  r : Renderer VM
  calls : List Call

/-- The next step of one call against the shared renderer; `none` when the call cannot
move (it waits for the lock, or it has returned). The script function runs while the
call is at `inScript` and its effect on the runtime is recorded when it returns. -/
def Call.step {VM : Type} (r : Renderer VM) (c : Call) : Option (Renderer VM × Call) :=
  match c.pc with
  | PC.entry => some (r, { c with pc := if c.noreload then PC.formatting else PC.atLock })
  | PC.atLock =>
    match r.mtx.Lock with
    | none => none
    | some held => some ({ r with mtx := held }, { c with pc := PC.inScript })
  | PC.inScript =>
    let out := r.renderfile.Render r.vm c.components
    some ({ r with vm := out.1 }, { c with pc := PC.atUnlock, out := some out.2 })
  | PC.atUnlock => some ({ r with mtx := r.mtx.Unlock }, { c with pc := PC.formatting })
  | PC.formatting =>
    if c.noreload then
      let resp := buildResp r.renderfile.Manifest c.components
      let w1 := c.w.SetHeader "Content-Type" "application/json; charset=utf-8"
      let en := Encode w1 resp
      some (r, { c with w := en.1, err := en.2, pc := PC.returned })
    else
      match c.out with
      | none => none
      | some (Except.error err) =>
        some (r, { c with err := some (r.tryConvToRenderError err), pc := PC.returned })
      | some (Except.ok res) =>
        let w1 := c.w.SetHeader "Content-Type" "text/html; charset=utf-8"
        let ex := r.template.Execute w1 res
        some (r, { c with w := ex.1, err := ex.2, pc := PC.returned })
  | PC.returned => none

/-- The scheduler lets call number `i` take a step; nothing happens when that call
cannot move or does not exist. -/
def System.step {VM : Type} (s : System VM) (i : Nat) : System VM :=
  match s.calls.get? i with
  | none => s
  | some c =>
    match c.step s.r with
    | none => s
    | some (r1, c1) => { r := r1, calls := s.calls.set i c1 }

/-- Runs a schedule: the list of call numbers in the order they are given a step. -/
def System.run {VM : Type} (s : System VM) (schedule : List Nat) : System VM :=
  schedule.foldl System.step s

/-- A renderer with the given calls just started. -/
def System.init {VM : Type} (r : Renderer VM) (calls : List Call) : System VM :=
  { r := r, calls := calls }

/-- Number of calls whose script function is running. -/
def System.activeScriptCalls {VM : Type} (s : System VM) : Nat :=
  s.calls.countP (fun c => c.pc == PC.inScript)

/-- Number of calls between their `Lock` and their `Unlock`. -/
def System.holders {VM : Type} (s : System VM) : Nat :=
  s.calls.countP (fun c => c.pc == PC.inScript || c.pc == PC.atUnlock)

/-- The lock is held exactly when one call is between its Lock and its Unlock, and
free exactly when none is. -/
def System.lockInvariant {VM : Type} (s : System VM) : Prop :=
  s.holders = if s.r.mtx.locked then 1 else 0

instance {VM : Type} (s : System VM) : Decidable s.lockInvariant := by
  unfold System.lockInvariant
  infer_instance

/-! ## Inputs used in the examples -/

/-- The manifest of the round-trip example. -/
def buttonManifest : List (String × ManifestEntry) :=
  [("Button", { Client := "button.js", Css := some ["button.css"] })]

/-- The entry of the round-trip example. -/
def buttonEntry : Entry :=
  { Comp := "Button", Props := some [("label", GoVal.str "Hi")] }

/-- A page template with a head and a body slot. -/
def pageTemplate : Template :=
  [Node.text "<html><head>", Node.field "Head", Node.text "</head><body>",
   Node.field "Body", Node.text "</body></html>"]

/-- A renderer whose runtime state counts the script calls made; the script function
fails with a thrown value on the empty entry list and succeeds otherwise. -/
def sampleRenderer (t : Template) : Renderer Nat :=
  { template := t,
    vm := 0,
    renderfile :=
      { Render := fun vm components =>
          (vm + 1,
           if components.isEmpty then Except.error (GoError.exception { repr := "boom" })
           else Except.ok { Head := "<title>X</title>", Body := "<div>Y</div>" }),
        Manifest := buttonManifest },
    isRenderError := fun v => v.repr == "boom",
    mtx := { locked := false } }

/-- An entry whose component the round-trip manifest does not know, with nil props. -/
def goneEntry : Entry :=
  { Comp := "Gone", Props := none }

/-- A renderer of another runtime type sharing only the manifest with `sampleRenderer`:
its lock is held and its script function always fails. -/
def otherRenderer : Renderer Unit :=
  { template := [],
    vm := (),
    renderfile :=
      { Render := fun vm _ => (vm, Except.error (GoError.generic "unavailable")),
        Manifest := buttonManifest },
    isRenderError := fun _ => false,
    mtx := { locked := true } }

/-- A page template naming a field that `result` does not have, after some text. -/
def brokenTemplate : Template :=
  [Node.text "<html>", Node.field "Title", Node.text "</html>"]

/-- An entry whose props hold a value the encoder refuses. -/
def chanEntry : Entry :=
  { Comp := "Button", Props := some [("ch", GoVal.unsupported "chan int")] }

/-- An empty response. -/
def emptyWriter : ResponseWriter :=
  { header := [], body := "" }

/-- Three concurrent requests: two in reload mode, one with noreload = true. -/
def sampleRequests : List (ResponseWriter × List Entry × Bool) :=
  [(emptyWriter, [buttonEntry], false), (emptyWriter, [], false),
   (emptyWriter, [buttonEntry, goneEntry], true)]

/-! ## The response list of the reload-disabled path -/

/-- The response entry that lines 80-91 build for one entry. -/
theorem respStep_eq (manifest : List (String × ManifestEntry))
    (acc : Option (List responseEntry)) (v : Entry) :
    respStep manifest acc v =
      some (sliceElems acc ++
        [{ File := "/" ++ (manifestIndex manifest v.Comp).Client,
           Props := some (v.Props.getD []),
           CSS := (manifestIndex manifest v.Comp).Css }]) := by
  cases acc <;> cases hp : v.Props <;> simp [respStep, sliceAppend, sliceElems, hp]

/-- The loop appends one response entry per entry to the accumulator, in order. -/
theorem foldl_respStep_elems (manifest : List (String × ManifestEntry))
    (components : List Entry) (acc : Option (List responseEntry)) :
    sliceElems (components.foldl (respStep manifest) acc) =
      sliceElems acc ++ components.map (fun v =>
        { File := "/" ++ (manifestIndex manifest v.Comp).Client,
          Props := some (v.Props.getD []),
          CSS := (manifestIndex manifest v.Comp).Css }) := by
  induction components generalizing acc with
  | nil => simp
  | cons v vs ih =>
    rw [List.foldl_cons, ih, respStep_eq]
    simp [sliceElems]

/-- The elements of the response list, as a map over the entries. -/
theorem buildResp_elems (manifest : List (String × ManifestEntry))
    (components : List Entry) :
    sliceElems (buildResp manifest components) =
      components.map (fun v =>
        { File := "/" ++ (manifestIndex manifest v.Comp).Client,
          Props := some (v.Props.getD []),
          CSS := (manifestIndex manifest v.Comp).Css }) := by
  unfold buildResp
  rw [foldl_respStep_elems]
  simp [sliceElems]

/-- The loop started on a non-nil slice ends on a non-nil slice. -/
theorem foldl_respStep_some (manifest : List (String × ManifestEntry))
    (components : List Entry) (l : List responseEntry) :
    ∃ l1, components.foldl (respStep manifest) (some l) = some l1 := by
  induction components generalizing l with
  | nil => exact ⟨l, rfl⟩
  | cons v vs ih =>
    rw [List.foldl_cons, respStep_eq]
    exact ih _

/-- On a non-empty entry list the response slice is non-nil. -/
theorem buildResp_some (manifest : List (String × ManifestEntry))
    (components : List Entry) (hne : components ≠ []) :
    buildResp manifest components = some (sliceElems (buildResp manifest components)) := by
  cases components with
  | nil => exact absurd rfl hne
  | cons v vs =>
    unfold buildResp
    rw [List.foldl_cons, respStep_eq]
    obtain ⟨l1, h1⟩ := foldl_respStep_some manifest vs
      (sliceElems none ++
        [{ File := "/" ++ (manifestIndex manifest v.Comp).Client,
           Props := some (v.Props.getD []),
           CSS := (manifestIndex manifest v.Comp).Css }])
    rw [h1]
    rfl

/-- The reload-disabled path always returns, whatever the lock state, and what it
returns is the renderer as it was, the encoder's outcome on the response list, and the
two calls it made. -/
theorem Render_noreload_eq {VM : Type} (r : Renderer VM) (w : ResponseWriter)
    (components : List Entry) :
    r.Render w components true =
      some { r := r,
             w := (Encode (w.SetHeader "Content-Type" "application/json; charset=utf-8")
                    (buildResp r.renderfile.Manifest components)).1,
             err := (Encode (w.SetHeader "Content-Type" "application/json; charset=utf-8")
                    (buildResp r.renderfile.Manifest components)).2,
             trace := [(Event.setContentType "application/json; charset=utf-8", r.mtx),
                       (Event.jsonEncode, r.mtx)] } := by
  simp [Renderer.Render]

/-- C1: with noreload = true, for every entry sequence and manifest, Render hands the
encoder a response list whose elements are, entry by entry and in entry order, File =
"/" followed by the manifest client path of the entry's component, Props = the entry's
props when non-nil and the empty non-nil map when nil, CSS = the manifest stylesheet
list of the component; in particular the list has the length of the entry sequence and
no element has nil props. -/
theorem Render_noreload_response_list {VM : Type} (r : Renderer VM) (w : ResponseWriter)
    (components : List Entry) :
    (r.Render w components true).map (fun ret => (ret.w, ret.err)) =
        some (Encode (w.SetHeader "Content-Type" "application/json; charset=utf-8")
          (buildResp r.renderfile.Manifest components)) ∧
    sliceElems (buildResp r.renderfile.Manifest components) =
        components.map (fun v =>
          { File := "/" ++ (manifestIndex r.renderfile.Manifest v.Comp).Client,
            Props := (match v.Props with
              | none => some []
              | some p => some p),
            CSS := (manifestIndex r.renderfile.Manifest v.Comp).Css }) ∧
    (sliceElems (buildResp r.renderfile.Manifest components)).length = components.length ∧
    ∀ e ∈ sliceElems (buildResp r.renderfile.Manifest components), e.Props ≠ none := by
  have hmap := buildResp_elems r.renderfile.Manifest components
  refine ⟨?_, ?_, ?_, ?_⟩
  · rw [Render_noreload_eq]
    rfl
  · rw [hmap]
    apply List.map_congr_left
    intro v _
    cases v.Props <;> rfl
  · rw [hmap, List.length_map]
  · intro e he
    rw [hmap, List.mem_map] at he
    obtain ⟨v, _, rfl⟩ := he
    simp

/-! ## The JSON body of the reload-disabled path -/

/-- A header that was just set reads back. -/
theorem SetHeader_GetHeader (w : ResponseWriter) (k v : String) :
    (w.SetHeader k v).GetHeader k = some v := by
  simp [ResponseWriter.SetHeader, ResponseWriter.GetHeader, List.lookup]

/-- The encoder leaves the header map alone. -/
theorem Encode_header (w : ResponseWriter) (resp : Option (List responseEntry)) :
    (Encode w resp).1.header = w.header := by
  unfold Encode
  cases marshalResp resp <;> rfl

/-- When every element marshals, the list marshals to the element encodings in order. -/
theorem marshalEntries_forall₂ (es : List responseEntry)
    (hok : ∀ e ∈ es, ∃ s, marshalEntry e = Except.ok s) :
    ∃ elems, marshalEntries es = Except.ok elems ∧
      List.Forall₂ (fun e s => marshalEntry e = Except.ok s) es elems := by
  induction es with
  | nil => exact ⟨[], rfl, List.Forall₂.nil⟩
  | cons e es ih =>
    obtain ⟨s, hs⟩ := hok e (List.mem_cons_self _ _)
    obtain ⟨ss, hss, hall⟩ := ih (fun x hx => hok x (List.mem_cons_of_mem _ hx))
    refine ⟨s :: ss, ?_, List.Forall₂.cons hs hall⟩
    simp [marshalEntries, hs, hss]

/-- A response entry marshals as soon as its props do, to an object with the three
members File, Props, CSS. -/
theorem marshalEntry_ok_of_props (e : responseEntry) (p : String)
    (hp : marshalProps e.Props = Except.ok p) :
    marshalEntry e = Except.ok (encodeObject
      [("File", encodeString e.File), ("Props", p), ("CSS", marshalStrings e.CSS)]) := by
  simp [marshalEntry, hp]

/-- Defaulting nil props to the empty map keeps them serialisable. -/
theorem marshalProps_default (props : Option (List (String × GoVal)))
    (h : ∃ s, marshalProps props = Except.ok s) :
    ∃ s, marshalProps (some (props.getD [])) = Except.ok s := by
  cases props with
  | none => exact ⟨_, rfl⟩
  | some kvs => simpa using h

/-- The text null followed by a newline is not an encoded array followed by a newline. -/
theorem not_array_null : ¬ ∃ elems : List String, "null\n" = encodeArray elems ++ "\n" := by
  rintro ⟨elems, h⟩
  have := congrArg String.data h
  simp [encodeArray, String.data_append] at this


/-- C2 (counterexample): on the empty entry sequence the body written with noreload =
true is the text null and a newline, which is not a JSON array. -/
theorem Render_noreload_empty_not_array :
    ((sampleRenderer pageTemplate).Render emptyWriter [] true).map (fun ret => ret.w.body)
        = some "null\n" ∧
    ¬ ∃ elems : List String,
        ((sampleRenderer pageTemplate).Render emptyWriter [] true).map (fun ret => ret.w.body)
          = some (encodeArray elems ++ "\n") := by
  have hbody : ((sampleRenderer pageTemplate).Render emptyWriter [] true).map
      (fun ret => ret.w.body) = some "null\n" := by decide
  refine ⟨hbody, ?_⟩
  rintro ⟨elems, h⟩
  rw [hbody] at h
  exact not_array_null ⟨elems, Option.some.inj h⟩

/-- The header set by the reload-disabled path. -/
theorem Render_noreload_content_type {VM : Type} (r : Renderer VM) (w : ResponseWriter)
    (components : List Entry) :
    ∃ ret, r.Render w components true = some ret ∧
      ret.w.GetHeader "Content-Type" = some "application/json; charset=utf-8" := by
  refine ⟨_, Render_noreload_eq r w components, ?_⟩
  show ResponseWriter.GetHeader (Encode _ _).1 _ = _
  unfold ResponseWriter.GetHeader
  rw [Encode_header]
  exact SetHeader_GetHeader w _ _

/-- On a non-empty entry sequence with serialisable props the reload-disabled path
returns nil after appending the array of the element encodings and a newline. -/
theorem Render_noreload_array_of_serialisable {VM : Type} (r : Renderer VM)
    (w : ResponseWriter) (components : List Entry) (hne : components ≠ [])
    (hser : ∀ v ∈ components, ∃ s, marshalProps v.Props = Except.ok s) :
    ∃ ret elems, r.Render w components true = some ret ∧
      ret.err = none ∧
      ret.w.body = w.body ++ (encodeArray elems ++ "\n") ∧
      elems.length = components.length ∧
      List.Forall₂ (fun v s =>
        marshalEntry
          { File := "/" ++ (manifestIndex r.renderfile.Manifest v.Comp).Client,
            Props := some (v.Props.getD []),
            CSS := (manifestIndex r.renderfile.Manifest v.Comp).Css } = Except.ok s)
        components elems := by
  have hsome := buildResp_some r.renderfile.Manifest components hne
  have helems := buildResp_elems r.renderfile.Manifest components
  have hok : ∀ e ∈ sliceElems (buildResp r.renderfile.Manifest components),
      ∃ s, marshalEntry e = Except.ok s := by
    intro e he
    rw [helems, List.mem_map] at he
    obtain ⟨v, hv, rfl⟩ := he
    obtain ⟨p, hp⟩ := marshalProps_default v.Props (hser v hv)
    exact ⟨_, marshalEntry_ok_of_props _ p hp⟩
  obtain ⟨elems, hm, hall⟩ := marshalEntries_forall₂ _ hok
  have hresp : marshalResp (buildResp r.renderfile.Manifest components)
      = Except.ok (encodeArray elems) := by
    rw [hsome]
    simp [marshalResp, hm]
  rw [helems, List.forall₂_map_left_iff] at hall
  refine ⟨_, elems, Render_noreload_eq r w components, ?_, ?_, ?_, hall⟩
  · simp [Encode, hresp]
  · simp [Encode, hresp, ResponseWriter.Write, ResponseWriter.SetHeader]
  · exact (List.Forall₂.length_eq hall).symm

/-- C2 (amended): with noreload = true Render returns with Content-Type set to
"application/json; charset=utf-8" for every entry sequence; when the sequence is
non-empty and every props map is serialisable, Render returns nil and the bytes it
appends to the body are a JSON array with exactly one element per entry, in entry
order, the i-th element being the encoding of the i-th response entry, followed by a
newline. -/
theorem Render_noreload_json_array {VM : Type} (r : Renderer VM) (w : ResponseWriter)
    (components : List Entry) :
    (∃ ret, r.Render w components true = some ret ∧
        ret.w.GetHeader "Content-Type" = some "application/json; charset=utf-8") ∧
    (components ≠ [] →
      (∀ v ∈ components, ∃ s, marshalProps v.Props = Except.ok s) →
      ∃ ret elems, r.Render w components true = some ret ∧
        ret.err = none ∧
        ret.w.body = w.body ++ (encodeArray elems ++ "\n") ∧
        elems.length = components.length ∧
        List.Forall₂ (fun v s =>
          marshalEntry
            { File := "/" ++ (manifestIndex r.renderfile.Manifest v.Comp).Client,
              Props := some (v.Props.getD []),
              CSS := (manifestIndex r.renderfile.Manifest v.Comp).Css } = Except.ok s)
          components elems) :=
  ⟨Render_noreload_content_type r w components,
    Render_noreload_array_of_serialisable r w components⟩

/-- C2 (amended), at a concrete input: two entries, one of them unknown to the manifest
and with nil props. -/
theorem Render_noreload_json_array_witness :
    ([buttonEntry, goneEntry] : List Entry) ≠ [] ∧
    (∀ v ∈ ([buttonEntry, goneEntry] : List Entry),
      ∃ s, marshalProps v.Props = Except.ok s) ∧
    ∃ ret elems,
      (sampleRenderer pageTemplate).Render emptyWriter
        [buttonEntry, goneEntry] true = some ret ∧
      ret.err = none ∧
      ret.w.body = emptyWriter.body ++ (encodeArray elems ++ "\n") ∧
      elems.length = 2 ∧
      List.Forall₂ (fun v s =>
        marshalEntry
          { File := "/" ++
              (manifestIndex (sampleRenderer pageTemplate).renderfile.Manifest v.Comp).Client,
            Props := some (v.Props.getD []),
            CSS := (manifestIndex (sampleRenderer pageTemplate).renderfile.Manifest v.Comp).Css }
          = Except.ok s)
        [buttonEntry, goneEntry] elems :=
  have hne : ([buttonEntry, goneEntry] : List Entry) ≠ [] := by simp
  have hser : ∀ v ∈ ([buttonEntry, goneEntry] : List Entry),
      ∃ s, marshalProps v.Props = Except.ok s := by
    intro v hv
    simp only [List.mem_cons, List.mem_singleton, List.not_mem_nil, or_false] at hv
    rcases hv with rfl | rfl
    · exact ⟨_, rfl⟩
    · exact ⟨_, rfl⟩
  ⟨hne, hser,
    (Render_noreload_json_array (sampleRenderer pageTemplate) emptyWriter
      [buttonEntry, goneEntry]).2 hne hser⟩

/-- C3 (counterexample): for the Button manifest and entry the bytes written are not
exactly the JSON text of the specification: a newline follows it. -/
theorem Render_button_not_bare_json :
    ((sampleRenderer pageTemplate).Render emptyWriter [buttonEntry] true).map
        (fun ret => ret.w.body) ≠
      some "[\x7b\"File\":\"/button.js\",\"Props\":\x7b\"label\":\"Hi\"\x7d,\"CSS\":[\"button.css\"]\x7d]" := by
  decide

/-- C3 (amended): given the manifest with the single component Button (client
button.js, stylesheets button.css) and the single entry Button with props label = Hi,
Render with noreload = true returns no error and the bytes it writes are exactly the
JSON text of the specification followed by one newline, with nothing before. -/
theorem Render_button_roundtrip {VM : Type} (r : Renderer VM) (w : ResponseWriter)
    (hm : r.renderfile.Manifest = buttonManifest) :
    ∃ ret, r.Render w [buttonEntry] true = some ret ∧
      ret.err = none ∧
      ret.w.body = w.body ++
        "[\x7b\"File\":\"/button.js\",\"Props\":\x7b\"label\":\"Hi\"\x7d,\"CSS\":[\"button.css\"]\x7d]\n" := by
  have hresp : marshalResp (buildResp buttonManifest [buttonEntry]) = Except.ok
      "[\x7b\"File\":\"/button.js\",\"Props\":\x7b\"label\":\"Hi\"\x7d,\"CSS\":[\"button.css\"]\x7d]" := rfl
  refine ⟨_, Render_noreload_eq r w [buttonEntry], ?_, ?_⟩
  · simp [Encode, hm, hresp]
  · simp [Encode, hm, hresp, ResponseWriter.Write, ResponseWriter.SetHeader]

/-- C3 (amended), at a concrete renderer and the empty response: the body is exactly
the JSON text and a newline. -/
theorem Render_button_roundtrip_witness :
    (sampleRenderer pageTemplate).renderfile.Manifest = buttonManifest ∧
    ∃ ret, (sampleRenderer pageTemplate).Render emptyWriter [buttonEntry] true = some ret ∧
      ret.err = none ∧
      ret.w.body = emptyWriter.body ++
        "[\x7b\"File\":\"/button.js\",\"Props\":\x7b\"label\":\"Hi\"\x7d,\"CSS\":[\"button.css\"]\x7d]\n" :=
  ⟨rfl, Render_button_roundtrip (sampleRenderer pageTemplate) emptyWriter rfl⟩

/-! ## Components missing from the manifest -/

/-- C4: for an entry whose component identifier is absent from the manifest, the
manifest lookup yields the zero-valued descriptor (empty client path, nil stylesheet
list); Render with noreload = true still produces a response entry for it (File "/",
the entry's defaulted props, no stylesheets) between the response entries of the
entries before and after it, which are what they are without it; that element marshals
whenever its props do; and the request returns nil whenever all props are
serialisable. -/
theorem Render_noreload_missing_component {VM : Type} (r : Renderer VM)
    (w : ResponseWriter) (xs ys : List Entry) (v : Entry)
    (hmiss : r.renderfile.Manifest.lookup v.Comp = none) :
    manifestIndex r.renderfile.Manifest v.Comp = { Client := "", Css := none } ∧
    sliceElems (buildResp r.renderfile.Manifest (xs ++ v :: ys)) =
      sliceElems (buildResp r.renderfile.Manifest xs) ++
        { File := "/", Props := some (v.Props.getD []), CSS := none } ::
        sliceElems (buildResp r.renderfile.Manifest ys) ∧
    (∀ p, marshalProps (some (v.Props.getD [])) = Except.ok p →
      marshalEntry { File := "/", Props := some (v.Props.getD []), CSS := none } =
        Except.ok (encodeObject [("File", "\"/\""), ("Props", p), ("CSS", "null")])) ∧
    ((∀ e ∈ xs ++ v :: ys, ∃ s, marshalProps e.Props = Except.ok s) →
      ∃ ret, r.Render w (xs ++ v :: ys) true = some ret ∧ ret.err = none) := by
  have hzero : manifestIndex r.renderfile.Manifest v.Comp = { Client := "", Css := none } := by
    simp [manifestIndex, hmiss, ManifestEntry.zero]
  refine ⟨hzero, ?_, ?_, ?_⟩
  · simp only [buildResp_elems, List.map_append, List.map_cons, hzero]
    rfl
  · intro p hp
    rw [marshalEntry_ok_of_props _ p hp]
    rfl
  · intro hser
    obtain ⟨ret, elems, hret, herr, _⟩ :=
      Render_noreload_array_of_serialisable r w (xs ++ v :: ys) (by simp) hser
    exact ⟨ret, hret, herr⟩

/-- C4, at a concrete input: an unknown component between two known ones. -/
theorem Render_noreload_missing_component_witness :
    (sampleRenderer pageTemplate).renderfile.Manifest.lookup goneEntry.Comp = none ∧
    manifestIndex (sampleRenderer pageTemplate).renderfile.Manifest goneEntry.Comp =
      { Client := "", Css := none } ∧
    sliceElems (buildResp (sampleRenderer pageTemplate).renderfile.Manifest
        ([buttonEntry] ++ goneEntry :: [buttonEntry])) =
      sliceElems (buildResp (sampleRenderer pageTemplate).renderfile.Manifest [buttonEntry]) ++
        { File := "/", Props := some (goneEntry.Props.getD []), CSS := none } ::
        sliceElems (buildResp (sampleRenderer pageTemplate).renderfile.Manifest [buttonEntry]) ∧
    (∀ p, marshalProps (some (goneEntry.Props.getD [])) = Except.ok p →
      marshalEntry { File := "/", Props := some (goneEntry.Props.getD []), CSS := none } =
        Except.ok (encodeObject [("File", "\"/\""), ("Props", p), ("CSS", "null")])) ∧
    ((∀ e ∈ [buttonEntry] ++ goneEntry :: [buttonEntry],
        ∃ s, marshalProps e.Props = Except.ok s) →
      ∃ ret, (sampleRenderer pageTemplate).Render emptyWriter
        ([buttonEntry] ++ goneEntry :: [buttonEntry]) true = some ret ∧ ret.err = none) :=
  ⟨rfl, Render_noreload_missing_component (sampleRenderer pageTemplate) emptyWriter
    [buttonEntry] [buttonEntry] goneEntry rfl⟩

/-! ## The reload-disabled path touches neither the runtime nor the lock -/

/-- C9: every Render call with noreload = true returns, whatever the state of the lock,
leaving the renderer as it was (the script-context state and the lock state after the
call equal those before it); it makes no lock, unlock or script call; and its response
and error are the same for any renderer with the same manifest, whatever that
renderer's runtime, script function, template or lock state. -/
theorem Render_noreload_frame {VM VM2 : Type} (r : Renderer VM) (r2 : Renderer VM2)
    (w : ResponseWriter) (components : List Entry)
    (hm : r2.renderfile.Manifest = r.renderfile.Manifest) :
    ∃ ret, r.Render w components true = some ret ∧
      ret.r = r ∧ ret.r.vm = r.vm ∧ ret.r.mtx = r.mtx ∧
      (∀ ev ∈ ret.trace, ev.1 ≠ Event.mtxLock ∧ ev.1 ≠ Event.scriptRender ∧
        ev.1 ≠ Event.mtxUnlock) ∧
      (r2.Render w components true).map (fun ret2 => (ret2.w, ret2.err)) =
        some (ret.w, ret.err) := by
  refine ⟨_, Render_noreload_eq r w components, rfl, rfl, rfl, ?_, ?_⟩
  · intro ev hev
    simp only [List.mem_cons, List.mem_singleton, List.not_mem_nil, or_false] at hev
    rcases hev with rfl | rfl <;> simp
  · rw [Render_noreload_eq, hm]
    rfl

/-- C9, at a concrete input: two renderers that share only the manifest, one of them
with its lock held. -/
theorem Render_noreload_frame_witness :
    otherRenderer.renderfile.Manifest = (sampleRenderer pageTemplate).renderfile.Manifest ∧
    ∃ ret, (sampleRenderer pageTemplate).Render emptyWriter [buttonEntry, goneEntry] true
        = some ret ∧
      ret.r = sampleRenderer pageTemplate ∧ ret.r.vm = (sampleRenderer pageTemplate).vm ∧
      ret.r.mtx = (sampleRenderer pageTemplate).mtx ∧
      (∀ ev ∈ ret.trace, ev.1 ≠ Event.mtxLock ∧ ev.1 ≠ Event.scriptRender ∧
        ev.1 ≠ Event.mtxUnlock) ∧
      (otherRenderer.Render emptyWriter [buttonEntry, goneEntry] true).map
          (fun ret2 => (ret2.w, ret2.err)) =
        some (ret.w, ret.err) :=
  ⟨rfl, Render_noreload_frame (sampleRenderer pageTemplate) otherRenderer emptyWriter
    [buttonEntry, goneEntry] rfl⟩

/-! ## The reload-enabled path -/

/-- The conversion depends on the renderer through its error predicate only. -/
theorem tryConv_of_isRenderError {VM VM2 : Type} (r : Renderer VM) (r2 : Renderer VM2)
    (h : r2.isRenderError = r.isRenderError) (e : GoError) :
    r2.tryConvToRenderError e = r.tryConvToRenderError e := by
  cases e <;> simp [Renderer.tryConvToRenderError, h]

/-- The reload-enabled path started with the lock free, when the script call fails. -/
theorem Render_reload_error {VM : Type} (r : Renderer VM) (w : ResponseWriter)
    (components : List Entry) (err : GoError) (hfree : r.mtx.locked = false)
    (hscript : (r.renderfile.Render r.vm components).2 = Except.error err) :
    r.Render w components false =
      some { r := { r with vm := (r.renderfile.Render r.vm components).1,
                           mtx := { locked := false } },
             w := w,
             err := some (r.tryConvToRenderError err),
             trace := [(Event.mtxLock, { locked := true }),
                       (Event.scriptRender, { locked := true }),
                       (Event.mtxUnlock, { locked := false })] } := by
  simp [Renderer.Render, Mutex.Lock, Mutex.Unlock, hfree, hscript]
  exact tryConv_of_isRenderError r _ rfl err

/-- The reload-enabled path started with the lock free, when the script call succeeds. -/
theorem Render_reload_ok {VM : Type} (r : Renderer VM) (w : ResponseWriter)
    (components : List Entry) (res : result) (hfree : r.mtx.locked = false)
    (hscript : (r.renderfile.Render r.vm components).2 = Except.ok res) :
    r.Render w components false =
      some { r := { r with vm := (r.renderfile.Render r.vm components).1,
                           mtx := { locked := false } },
             w := (r.template.Execute
                    (w.SetHeader "Content-Type" "text/html; charset=utf-8") res).1,
             err := (r.template.Execute
                    (w.SetHeader "Content-Type" "text/html; charset=utf-8") res).2,
             trace := [(Event.mtxLock, { locked := true }),
                       (Event.scriptRender, { locked := true }),
                       (Event.mtxUnlock, { locked := false }),
                       (Event.setContentType "text/html; charset=utf-8", { locked := false }),
                       (Event.templateExecute, { locked := false })] } := by
  simp [Renderer.Render, Mutex.Lock, Mutex.Unlock, hfree, hscript]

/-- Template execution leaves the header map alone. -/
theorem Execute_header (t : Template) (w : ResponseWriter) (d : result) :
    (Template.Execute t w d).1.header = w.header := by
  induction t generalizing w with
  | nil => rfl
  | cons n rest ih =>
    cases n with
    | text s => simp [Template.Execute, ih, ResponseWriter.Write]
    | field name =>
      unfold Template.Execute
      cases d.lookupField name with
      | none => rfl
      | some s => simp [ih, ResponseWriter.Write]

/-- The fields of a `result` are Head and Body. -/
theorem lookupField_isSome (d : result) (n : String) (h : n = "Head" ∨ n = "Body") :
    d.lookupField n = some ((d.lookupField n).getD "") := by
  rcases h with rfl | rfl <;> simp [result.lookupField]

/-- A template naming only the fields Head and Body executes without error and appends
its output to the body. -/
theorem Execute_ok (t : Template) (w : ResponseWriter) (d : result)
    (hvalid : ∀ n, Node.field n ∈ t → n = "Head" ∨ n = "Body") :
    Template.Execute t w d = ({ w with body := w.body ++ Template.output d t }, none) := by
  induction t generalizing w with
  | nil => simp [Template.Execute, Template.output]
  | cons n rest ih =>
    have hrest : ∀ m, Node.field m ∈ rest → m = "Head" ∨ m = "Body" :=
      fun m hm => hvalid m (List.mem_cons_of_mem _ hm)
    cases n with
    | text s =>
      simp [Template.Execute, ih _ hrest, ResponseWriter.Write, Template.output, Node.expand,
        String.append_assoc]
    | field name =>
      have hn := lookupField_isSome d name (hvalid name (List.mem_cons_self _ _))
      unfold Template.Execute
      rw [hn]
      simp [ih _ hrest, ResponseWriter.Write, Template.output, Node.expand,
        String.append_assoc]

/-- A template whose first unknown field comes after a prefix naming only Head and Body
stops at that field: the output of the prefix has been appended to the body and the
field's error is returned. -/
theorem Execute_fail (pre post : Template) (n : String) (w : ResponseWriter) (d : result)
    (hvalid : ∀ m, Node.field m ∈ pre → m = "Head" ∨ m = "Body")
    (hhead : n ≠ "Head") (hbody : n ≠ "Body") :
    Template.Execute (pre ++ Node.field n :: post) w d =
      ({ w with body := w.body ++ Template.output d pre }, some (GoError.execError n)) := by
  induction pre generalizing w with
  | nil => simp [Template.Execute, Template.output, result.lookupField, hhead, hbody]
  | cons m rest ih =>
    have hrest : ∀ k, Node.field k ∈ rest → k = "Head" ∨ k = "Body" :=
      fun k hk => hvalid k (List.mem_cons_of_mem _ hk)
    cases m with
    | text s =>
      simp [Template.Execute, ih _ hrest, ResponseWriter.Write, Template.output, Node.expand,
        String.append_assoc]
    | field name =>
      have hn := lookupField_isSome d name (hvalid name (List.mem_cons_self _ _))
      simp only [List.cons_append]
      unfold Template.Execute
      rw [hn]
      simp [ih _ hrest, ResponseWriter.Write, Template.output, Node.expand,
        String.append_assoc]

/-- An error classified as a render error is a script exception whose thrown value
satisfies the predicate. -/
theorem classified_is_exception {VM : Type} (r : Renderer VM) (err : GoError)
    (h : r.classifiesAsRenderError err = true) :
    ∃ v, err = GoError.exception v ∧ r.isRenderError v = true := by
  cases err with
  | exception v => exact ⟨v, rfl, h⟩
  | generic msg => simp [Renderer.classifiesAsRenderError] at h
  | renderError v => simp [Renderer.classifiesAsRenderError] at h
  | unsupportedType k => simp [Renderer.classifiesAsRenderError] at h
  | execError f => simp [Renderer.classifiesAsRenderError] at h

/-- An error the predicate does not classify as a render error is converted to itself. -/
theorem tryConv_unclassified {VM : Type} (r : Renderer VM) (err : GoError)
    (h : r.classifiesAsRenderError err = false) :
    r.tryConvToRenderError err = err := by
  cases err with
  | exception v =>
    have hv : r.isRenderError v = false := h
    simp [Renderer.tryConvToRenderError, hv]
  | generic msg => rfl
  | renderError v => rfl
  | unsupportedType k => rfl
  | execError f => rfl

/-- C5: when a Render call with noreload = false obtains the lock and the script render
call returns an error e, Render returns the result of tryConvToRenderError on e: if the
isRenderError predicate classifies e as a render error (e is a script exception whose
thrown value satisfies the predicate), the returned error is the tagged render error
for that value, which is distinct from e; otherwise Render returns exactly e. -/
theorem Render_script_error_classified {VM : Type} (r : Renderer VM) (w : ResponseWriter)
    (components : List Entry) (e : GoError) (hfree : r.mtx.locked = false)
    (hscript : (r.renderfile.Render r.vm components).2 = Except.error e) :
    ∃ ret, r.Render w components false = some ret ∧
      ret.err = some (r.tryConvToRenderError e) ∧
      (r.classifiesAsRenderError e = true →
        ∃ v, e = GoError.exception v ∧ ret.err = some (GoError.renderError v) ∧
          ret.err ≠ some e) ∧
      (r.classifiesAsRenderError e = false → ret.err = some e) := by
  refine ⟨_, Render_reload_error r w components e hfree hscript, rfl, ?_, ?_⟩
  · intro hcls
    obtain ⟨v, rfl, hv⟩ := classified_is_exception r e hcls
    refine ⟨v, rfl, ?_, ?_⟩ <;> simp [Renderer.tryConvToRenderError, hv]
  · intro hcls
    simp [tryConv_unclassified r e hcls]

/-- C5, at a concrete input: the script throws a value that the predicate accepts. -/
theorem Render_script_error_classified_witness :
    (sampleRenderer pageTemplate).mtx.locked = false ∧
    ((sampleRenderer pageTemplate).renderfile.Render (sampleRenderer pageTemplate).vm []).2 =
      Except.error (GoError.exception { repr := "boom" }) ∧
    ∃ ret, (sampleRenderer pageTemplate).Render emptyWriter [] false = some ret ∧
      ret.err = some ((sampleRenderer pageTemplate).tryConvToRenderError
        (GoError.exception { repr := "boom" })) ∧
      ((sampleRenderer pageTemplate).classifiesAsRenderError
          (GoError.exception { repr := "boom" }) = true →
        ∃ v, GoError.exception { repr := "boom" } = GoError.exception v ∧
          ret.err = some (GoError.renderError v) ∧
          ret.err ≠ some (GoError.exception { repr := "boom" })) ∧
      ((sampleRenderer pageTemplate).classifiesAsRenderError
          (GoError.exception { repr := "boom" }) = false →
        ret.err = some (GoError.exception { repr := "boom" })) :=
  ⟨rfl, rfl, Render_script_error_classified (sampleRenderer pageTemplate) emptyWriter []
    (GoError.exception { repr := "boom" }) rfl rfl⟩

/-- C6: a Render call with noreload = false started with the lock free returns with
the lock free. Its first three calls are Lock, the script render call and Unlock, the
lock being held after the first two and free after the third, on the failure path
(where nothing else is called) and on the success path alike; on the success path the
header is set and the template executed after the Unlock, with the lock free. Any
Render call with noreload = false issued next on the renderer returns (it does not
wait); when its script call succeeds it returns what the template execution returns,
which is nil for a template naming only the fields Head and Body. -/
theorem Render_reload_releases_lock {VM : Type} (r : Renderer VM) (w : ResponseWriter)
    (components : List Entry) (hfree : r.mtx.locked = false) :
    ∃ ret, r.Render w components false = some ret ∧
      ret.r.mtx.locked = false ∧
      (∀ e, (r.renderfile.Render r.vm components).2 = Except.error e →
        ret.trace = [(Event.mtxLock, { locked := true }),
                     (Event.scriptRender, { locked := true }),
                     (Event.mtxUnlock, { locked := false })]) ∧
      (∀ res, (r.renderfile.Render r.vm components).2 = Except.ok res →
        ret.trace = [(Event.mtxLock, { locked := true }),
                     (Event.scriptRender, { locked := true }),
                     (Event.mtxUnlock, { locked := false }),
                     (Event.setContentType "text/html; charset=utf-8", { locked := false }),
                     (Event.templateExecute, { locked := false })]) ∧
      (∀ (w2 : ResponseWriter) (components2 : List Entry),
        ∃ ret2, ret.r.Render w2 components2 false = some ret2 ∧
          ret2.r.mtx.locked = false ∧
          ∀ res2, (ret.r.renderfile.Render ret.r.vm components2).2 = Except.ok res2 →
            ret2.err = (ret.r.template.Execute
              (w2.SetHeader "Content-Type" "text/html; charset=utf-8") res2).2 ∧
            ((∀ n, Node.field n ∈ ret.r.template → n = "Head" ∨ n = "Body") →
              ret2.err = none)) := by
  have key : ∀ {VM : Type} (q : Renderer VM) (u : ResponseWriter) (cs : List Entry),
      q.mtx.locked = false →
      ∃ ret, q.Render u cs false = some ret ∧ ret.r.mtx.locked = false ∧
        (∀ e, (q.renderfile.Render q.vm cs).2 = Except.error e →
          ret.trace = [(Event.mtxLock, { locked := true }),
                       (Event.scriptRender, { locked := true }),
                       (Event.mtxUnlock, { locked := false })]) ∧
        (∀ res, (q.renderfile.Render q.vm cs).2 = Except.ok res →
          ret.trace = [(Event.mtxLock, { locked := true }),
                       (Event.scriptRender, { locked := true }),
                       (Event.mtxUnlock, { locked := false }),
                       (Event.setContentType "text/html; charset=utf-8", { locked := false }),
                       (Event.templateExecute, { locked := false })] ∧
          ret.err = (q.template.Execute
              (u.SetHeader "Content-Type" "text/html; charset=utf-8") res).2) := by
    intro VM q u cs hq
    cases hout : (q.renderfile.Render q.vm cs).2 with
    | error e =>
      refine ⟨_, Render_reload_error q u cs e hq hout, rfl, fun _ _ => rfl, ?_⟩
      intro res hres
      cases hres
    | ok res =>
      refine ⟨_, Render_reload_ok q u cs res hq hout, rfl, ?_, ?_⟩
      · intro e he
        cases he
      · intro res1 hres1
        cases hres1
        exact ⟨rfl, rfl⟩
  obtain ⟨ret, hret, hlock, hfail, hsucc⟩ := key r w components hfree
  refine ⟨ret, hret, hlock, hfail, fun res hres => (hsucc res hres).1, ?_⟩
  intro w2 components2
  obtain ⟨ret2, hret2, hlock2, _, hsucc2⟩ := key ret.r w2 components2 hlock
  refine ⟨ret2, hret2, hlock2, ?_⟩
  intro res2 hres2
  refine ⟨(hsucc2 res2 hres2).2, ?_⟩
  intro hvalid
  rw [(hsucc2 res2 hres2).2, Execute_ok _ _ _ hvalid]

/-- C6, at a concrete input: a call whose script call fails, started with the lock
free. -/
theorem Render_reload_releases_lock_witness :
    (sampleRenderer pageTemplate).mtx.locked = false ∧
    ∃ ret, (sampleRenderer pageTemplate).Render emptyWriter [] false = some ret ∧
      ret.r.mtx.locked = false ∧
      (∀ e, ((sampleRenderer pageTemplate).renderfile.Render
          (sampleRenderer pageTemplate).vm []).2 = Except.error e →
        ret.trace = [(Event.mtxLock, { locked := true }),
                     (Event.scriptRender, { locked := true }),
                     (Event.mtxUnlock, { locked := false })]) ∧
      (∀ res, ((sampleRenderer pageTemplate).renderfile.Render
          (sampleRenderer pageTemplate).vm []).2 = Except.ok res →
        ret.trace = [(Event.mtxLock, { locked := true }),
                     (Event.scriptRender, { locked := true }),
                     (Event.mtxUnlock, { locked := false }),
                     (Event.setContentType "text/html; charset=utf-8", { locked := false }),
                     (Event.templateExecute, { locked := false })]) ∧
      (∀ (w2 : ResponseWriter) (components2 : List Entry),
        ∃ ret2, ret.r.Render w2 components2 false = some ret2 ∧
          ret2.r.mtx.locked = false ∧
          ∀ res2, (ret.r.renderfile.Render ret.r.vm components2).2 = Except.ok res2 →
            ret2.err = (ret.r.template.Execute
              (w2.SetHeader "Content-Type" "text/html; charset=utf-8") res2).2 ∧
            ((∀ n, Node.field n ∈ ret.r.template → n = "Head" ∨ n = "Body") →
              ret2.err = none)) :=
  ⟨rfl, Render_reload_releases_lock (sampleRenderer pageTemplate) emptyWriter [] rfl⟩


/-! ## The HTML response -/

/-- C8: when a Render call with noreload = false obtains the lock and the script render
call succeeds with result res, Render sets Content-Type to "text/html; charset=utf-8",
the response it leaves is exactly what executing the page template on res leaves, and
its return value is the template execution's error. For a template naming only the
fields Head and Body that error is nil and the bytes appended are the template's text
with each field replaced by the fragment as it is; for a template of the shape text,
Head, text, Body, text the bytes are the first text, res.Head, the second text,
res.Body and the third text, concatenated. -/
theorem Render_reload_html {VM : Type} (r : Renderer VM) (w : ResponseWriter)
    (components : List Entry) (res : result) (hfree : r.mtx.locked = false)
    (hscript : (r.renderfile.Render r.vm components).2 = Except.ok res) :
    ∃ ret, r.Render w components false = some ret ∧
      ret.w.GetHeader "Content-Type" = some "text/html; charset=utf-8" ∧
      ret.w = (r.template.Execute
        (w.SetHeader "Content-Type" "text/html; charset=utf-8") res).1 ∧
      ret.err = (r.template.Execute
        (w.SetHeader "Content-Type" "text/html; charset=utf-8") res).2 ∧
      ((∀ n, Node.field n ∈ r.template → n = "Head" ∨ n = "Body") →
        ret.err = none ∧ ret.w.body = w.body ++ Template.output res r.template) ∧
      (∀ a b c : String,
        r.template = [Node.text a, Node.field "Head", Node.text b, Node.field "Body",
          Node.text c] →
        ret.err = none ∧ ret.w.body = w.body ++ (a ++ (res.Head ++ (b ++ (res.Body ++ c))))) := by
  refine ⟨_, Render_reload_ok r w components res hfree hscript, ?_, rfl, rfl, ?_, ?_⟩
  · show ResponseWriter.GetHeader (Template.Execute _ _ _).1 _ = _
    unfold ResponseWriter.GetHeader
    rw [Execute_header]
    exact SetHeader_GetHeader w _ _
  · intro hvalid
    simp [Execute_ok _ _ _ hvalid, ResponseWriter.SetHeader]
  · intro a b c ht
    have hvalid : ∀ n, Node.field n ∈ r.template → n = "Head" ∨ n = "Body" := by
      intro n hn
      rw [ht] at hn
      simp at hn
      exact hn
    simp only [Execute_ok _ _ _ hvalid, ResponseWriter.SetHeader, true_and]
    rw [ht]
    simp [Template.output, Node.expand, result.lookupField]

/-- C8, at a concrete input: the page template on a head and a body fragment. -/
theorem Render_reload_html_witness :
    (sampleRenderer pageTemplate).mtx.locked = false ∧
    ((sampleRenderer pageTemplate).renderfile.Render (sampleRenderer pageTemplate).vm
        [buttonEntry]).2 = Except.ok { Head := "<title>X</title>", Body := "<div>Y</div>" } ∧
    ∃ ret, (sampleRenderer pageTemplate).Render emptyWriter [buttonEntry] false = some ret ∧
      ret.w.GetHeader "Content-Type" = some "text/html; charset=utf-8" ∧
      ret.w = ((sampleRenderer pageTemplate).template.Execute
        (emptyWriter.SetHeader "Content-Type" "text/html; charset=utf-8")
        { Head := "<title>X</title>", Body := "<div>Y</div>" }).1 ∧
      ret.err = ((sampleRenderer pageTemplate).template.Execute
        (emptyWriter.SetHeader "Content-Type" "text/html; charset=utf-8")
        { Head := "<title>X</title>", Body := "<div>Y</div>" }).2 ∧
      ((∀ n, Node.field n ∈ (sampleRenderer pageTemplate).template →
          n = "Head" ∨ n = "Body") →
        ret.err = none ∧ ret.w.body = emptyWriter.body ++
          Template.output { Head := "<title>X</title>", Body := "<div>Y</div>" }
            (sampleRenderer pageTemplate).template) ∧
      (∀ a b c : String,
        (sampleRenderer pageTemplate).template =
          [Node.text a, Node.field "Head", Node.text b, Node.field "Body", Node.text c] →
        ret.err = none ∧ ret.w.body = emptyWriter.body ++
          (a ++ ((result.mk "<title>X</title>" "<div>Y</div>").Head ++
            (b ++ ((result.mk "<title>X</title>" "<div>Y</div>").Body ++ c))))) :=
  ⟨rfl, rfl, Render_reload_html (sampleRenderer pageTemplate) emptyWriter [buttonEntry]
    { Head := "<title>X</title>", Body := "<div>Y</div>" } rfl rfl⟩

/-! ## Output left behind by a failing call -/

/-- C10 (counterexample): with a page template that names a field the result does not
have after some literal text, Render returns the template error although that text has
already been written to the response body. -/
theorem Render_template_error_partial_output :
    ((sampleRenderer brokenTemplate).Render emptyWriter [buttonEntry] false).map (fun ret => (ret.err, ret.w.body)) =
      some (some (GoError.execError "Title"), "<html>") := by
  decide

/-- C10 (amended): for a Render call that returns an error: when the script render call
fails, the response is untouched (nothing written to the body, no header set); when
JSON encoding fails, the Content-Type header has been set to "application/json;
charset=utf-8" and nothing else has changed, so no bytes of the body have been written;
when template execution fails at a field the result does not have, the Content-Type
header has been set to "text/html; charset=utf-8" and the output of the template up to
that field has been written to the body. -/
theorem Render_error_output {VM : Type} (r : Renderer VM) (w : ResponseWriter)
    (components : List Entry) :
    (r.mtx.locked = false →
      ∀ e, (r.renderfile.Render r.vm components).2 = Except.error e →
        ∃ ret, r.Render w components false = some ret ∧ ret.err ≠ none ∧ ret.w = w ∧
          ret.w.header = w.header ∧ ret.w.body = w.body) ∧
    (∀ ret, r.Render w components true = some ret → ret.err ≠ none →
      ret.w = w.SetHeader "Content-Type" "application/json; charset=utf-8" ∧
      ret.w.GetHeader "Content-Type" = some "application/json; charset=utf-8" ∧
      ret.w.body = w.body) ∧
    (r.mtx.locked = false →
      ∀ (res : result) (pre post : Template) (n : String),
        (r.renderfile.Render r.vm components).2 = Except.ok res →
        r.template = pre ++ Node.field n :: post →
        (∀ m, Node.field m ∈ pre → m = "Head" ∨ m = "Body") →
        n ≠ "Head" → n ≠ "Body" →
        ∃ ret, r.Render w components false = some ret ∧
          ret.err = some (GoError.execError n) ∧
          ret.w.GetHeader "Content-Type" = some "text/html; charset=utf-8" ∧
          ret.w.body = w.body ++ Template.output res pre) := by
  refine ⟨?_, ?_, ?_⟩
  · intro hfree e he
    exact ⟨_, Render_reload_error r w components e hfree he, by simp, rfl, rfl, rfl⟩
  · intro ret hret herr
    rw [Render_noreload_eq] at hret
    cases hret
    have hw : (Encode (w.SetHeader "Content-Type" "application/json; charset=utf-8")
        (buildResp r.renderfile.Manifest components)).1 =
        w.SetHeader "Content-Type" "application/json; charset=utf-8" := by
      revert herr
      unfold Encode
      cases marshalResp (buildResp r.renderfile.Manifest components) with
      | ok s => simp
      | error e => simp
    refine ⟨hw, ?_, ?_⟩
    · show ResponseWriter.GetHeader (Encode _ _).1 _ = _
      rw [hw]
      exact SetHeader_GetHeader w _ _
    · show (Encode _ _).1.body = _
      rw [hw]
      rfl
  · intro hfree res pre post n hres ht hvalid hhead hbody
    refine ⟨_, Render_reload_ok r w components res hfree hres, ?_, ?_, ?_⟩
    · simp [ht, Execute_fail pre post n _ res hvalid hhead hbody]
    · show ResponseWriter.GetHeader (Template.Execute _ _ _).1 _ = _
      unfold ResponseWriter.GetHeader
      rw [Execute_header]
      exact SetHeader_GetHeader w _ _
    · simp [ht, Execute_fail pre post n _ res hvalid hhead hbody, ResponseWriter.SetHeader]

/-- C10 (amended), at concrete inputs: a failing script call, props the encoder refuses,
and a template naming an unknown field. -/
theorem Render_error_output_witness :
    ((sampleRenderer pageTemplate).mtx.locked = false ∧
      ((sampleRenderer pageTemplate).renderfile.Render (sampleRenderer pageTemplate).vm []).2 =
        Except.error (GoError.exception { repr := "boom" }) ∧
      ∃ ret, (sampleRenderer pageTemplate).Render emptyWriter [] false = some ret ∧
        ret.err ≠ none ∧ ret.w = emptyWriter ∧
        ret.w.header = emptyWriter.header ∧ ret.w.body = emptyWriter.body) ∧
    (∃ ret, (sampleRenderer pageTemplate).Render emptyWriter [chanEntry] true = some ret ∧
      ret.err ≠ none ∧
      ret.w = emptyWriter.SetHeader "Content-Type" "application/json; charset=utf-8" ∧
      ret.w.GetHeader "Content-Type" = some "application/json; charset=utf-8" ∧
      ret.w.body = emptyWriter.body) ∧
    ((sampleRenderer brokenTemplate).mtx.locked = false ∧
      ((sampleRenderer brokenTemplate).renderfile.Render (sampleRenderer brokenTemplate).vm
        [buttonEntry]).2 = Except.ok { Head := "<title>X</title>", Body := "<div>Y</div>" } ∧
      (sampleRenderer brokenTemplate).template =
        [Node.text "<html>"] ++ Node.field "Title" :: [Node.text "</html>"] ∧
      (∀ m, Node.field m ∈ [Node.text "<html>"] → m = "Head" ∨ m = "Body") ∧
      "Title" ≠ "Head" ∧ "Title" ≠ "Body" ∧
      ∃ ret, (sampleRenderer brokenTemplate).Render emptyWriter [buttonEntry] false = some ret ∧
        ret.err = some (GoError.execError "Title") ∧
        ret.w.GetHeader "Content-Type" = some "text/html; charset=utf-8" ∧
        ret.w.body = emptyWriter.body ++
          Template.output { Head := "<title>X</title>", Body := "<div>Y</div>" }
            [Node.text "<html>"]) :=
  have hchan : (Encode
      (emptyWriter.SetHeader "Content-Type" "application/json; charset=utf-8")
      (buildResp (sampleRenderer pageTemplate).renderfile.Manifest [chanEntry])).2 ≠ none := by
    decide
  have hvalid : ∀ m, Node.field m ∈ [Node.text "<html>"] → m = "Head" ∨ m = "Body" := by
    intro m hm
    simp at hm
  ⟨⟨rfl, rfl,
      (Render_error_output (sampleRenderer pageTemplate) emptyWriter []).1 rfl _ rfl⟩,
    ⟨_, Render_noreload_eq (sampleRenderer pageTemplate) emptyWriter [chanEntry], hchan,
      (Render_error_output (sampleRenderer pageTemplate) emptyWriter [chanEntry]).2.1 _
        (Render_noreload_eq (sampleRenderer pageTemplate) emptyWriter [chanEntry]) hchan⟩,
    ⟨rfl, rfl, rfl, hvalid, by decide, by decide,
      (Render_error_output (sampleRenderer brokenTemplate) emptyWriter [buttonEntry]).2.2 rfl
        { Head := "<title>X</title>", Body := "<div>Y</div>" }
        [Node.text "<html>"] [Node.text "</html>"] "Title" rfl rfl hvalid
        (by decide) (by decide)⟩⟩

/-! ## Concurrent callers: at most one script call at a time -/

/-- Replacing call number `i` changes the number of lock holders by the difference
between the new and the old call. -/
theorem holders_set (calls : List Call) (i : Nat) (c c1 : Call)
    (hget : calls.get? i = some c) :
    (calls.set i c1).countP (fun c => c.pc == PC.inScript || c.pc == PC.atUnlock) +
        (if (c.pc == PC.inScript || c.pc == PC.atUnlock) then 1 else 0) =
      calls.countP (fun c => c.pc == PC.inScript || c.pc == PC.atUnlock) +
        (if (c1.pc == PC.inScript || c1.pc == PC.atUnlock) then 1 else 0) := by
  induction calls generalizing i with
  | nil => simp at hget
  | cons x rest ih =>
    cases i with
    | zero =>
      simp only [List.get?_cons_zero, Option.some.injEq] at hget
      subst hget
      simp only [List.set_cons_zero, List.countP_cons]
      omega
    | succ j =>
      simp only [List.get?_cons_succ] at hget
      have := ih j hget
      simp only [List.set_cons_succ, List.countP_cons]
      omega

/-- One scheduled step keeps the lock invariant. -/
theorem step_lockInvariant {VM : Type} (s : System VM) (i : Nat) (hinv : s.lockInvariant) :
    (s.step i).lockInvariant := by
  unfold System.step
  cases hget : s.calls.get? i with
  | none => exact hinv
  | some c =>
    have hset := fun c1 => holders_set s.calls i c c1 hget
    unfold System.lockInvariant System.holders at hinv ⊢
    cases hpc : c.pc with
    | entry =>
      have h := hset { c with pc := if c.noreload then PC.formatting else PC.atLock }
      cases hnr : c.noreload <;>
        simp [Call.step, hpc, hnr, -List.countP_eq_zero] at h ⊢ <;> omega
    | atLock =>
      have h := hset { c with pc := PC.inScript }
      cases hl : s.r.mtx.locked with
      | true => simpa [Call.step, hpc, Mutex.Lock, hl] using hinv
      | false =>
        simp [hl, -List.countP_eq_zero] at hinv
        simp [Call.step, hpc, Mutex.Lock, hl, -List.countP_eq_zero] at h ⊢
        omega
    | inScript =>
      have h := hset { c with pc := PC.atUnlock,
                              out := some (s.r.renderfile.Render s.r.vm c.components).2 }
      simp [Call.step, hpc, -List.countP_eq_zero] at h ⊢
      omega
    | atUnlock =>
      have h := hset { c with pc := PC.formatting }
      have hpos : 0 < s.calls.countP (fun c => c.pc == PC.inScript || c.pc == PC.atUnlock) := by
        rw [List.countP_pos_iff]
        exact ⟨_, List.get?_mem hget, by simp [hpc]⟩
      cases hl : s.r.mtx.locked with
      | true =>
        simp [hl, -List.countP_eq_zero] at hinv
        simp [Call.step, hpc, Mutex.Unlock, -List.countP_eq_zero] at h ⊢
        omega
      | false =>
        simp [hl, -List.countP_eq_zero] at hinv
        omega
    | formatting =>
      cases hstep : Call.step s.r c with
      | none => simpa [hstep] using hinv
      | some p =>
        obtain ⟨r1, c1⟩ := p
        have hr1 : r1 = s.r ∧ c1.pc = PC.returned := by
          simp only [Call.step, hpc] at hstep
          split at hstep
          · cases hstep
            exact ⟨rfl, rfl⟩
          · split at hstep
            · cases hstep
            · cases hstep
              exact ⟨rfl, rfl⟩
            · cases hstep
              exact ⟨rfl, rfl⟩
        have h := hset c1
        obtain ⟨rfl, hc1⟩ := hr1
        simp [hpc, hc1, hstep, -List.countP_eq_zero] at h ⊢
        omega
    | returned => simpa [Call.step, hpc] using hinv

/-- Every schedule keeps the lock invariant. -/
theorem run_lockInvariant {VM : Type} (schedule : List Nat) (s : System VM)
    (hinv : s.lockInvariant) : (s.run schedule).lockInvariant := by
  induction schedule generalizing s with
  | nil => exact hinv
  | cons i rest ih => exact ih (s.step i) (step_lockInvariant s i hinv)

/-- The lock invariant holds when the calls start on a renderer whose lock is free. -/
theorem init_lockInvariant {VM : Type} (r : Renderer VM) (hfree : r.mtx.locked = false)
    (requests : List (ResponseWriter × List Entry × Bool)) :
    (System.init r (requests.map (fun q => Call.start q.1 q.2.1 q.2.2))).lockInvariant := by
  unfold System.lockInvariant System.holders System.init
  simp [List.countP_eq_zero, hfree, Call.start]

/-- A call whose script function is running is between its Lock and its Unlock. -/
theorem activeScriptCalls_le_holders {VM : Type} (s : System VM) :
    s.activeScriptCalls ≤ s.holders := by
  unfold System.activeScriptCalls System.holders
  apply List.countP_mono_left
  intro c _ h
  simp [h]

/-- A single call run to completion by the scheduler leaves what `Render` returns: the
step model and the function describe the same program. -/
theorem run_single_call_eq_Render {VM : Type} (r : Renderer VM) (w : ResponseWriter)
    (components : List Entry) (noreload : Bool) (hfree : r.mtx.locked = false) :
    ∃ ret, r.Render w components noreload = some ret ∧
      ((System.init r [Call.start w components noreload]).run [0, 0, 0, 0, 0]).r = ret.r ∧
      ((System.init r [Call.start w components noreload]).run [0, 0, 0, 0, 0]).calls.map
          (fun c => (c.pc, c.w, c.err)) = [(PC.returned, ret.w, ret.err)] := by
  cases noreload with
  | true =>
    refine ⟨_, Render_noreload_eq r w components, ?_, ?_⟩ <;>
      simp [System.run, System.init, System.step, Call.step, Call.start]
  | false =>
    cases hout : (r.renderfile.Render r.vm components).2 with
    | error e =>
      refine ⟨_, Render_reload_error r w components e hfree hout, ?_, ?_⟩
      · simp [System.run, System.init, System.step, Call.step, Call.start, Mutex.Lock,
          Mutex.Unlock, hfree, hout]
      · simp [System.run, System.init, System.step, Call.step, Call.start, Mutex.Lock,
          Mutex.Unlock, hfree, hout]
        exact tryConv_of_isRenderError r _ rfl e
    | ok res =>
      refine ⟨_, Render_reload_ok r w components res hfree hout, ?_, ?_⟩ <;>
        simp [System.run, System.init, System.step, Call.step, Call.start, Mutex.Lock,
          Mutex.Unlock, hfree, hout]

/-- C7: for every renderer whose lock is free, every list of concurrent Render calls on
it (with noreload = false, or any mix of the two modes) and every interleaving of
their steps, at most one call has its script render function running at any time; and
while the lock is free none has. -/
theorem Render_concurrent_single_script_call {VM : Type} (r : Renderer VM)
    (hfree : r.mtx.locked = false) (requests : List (ResponseWriter × List Entry × Bool))
    (schedule : List Nat) :
    ((System.init r (requests.map (fun q => Call.start q.1 q.2.1 q.2.2))).run
        schedule).activeScriptCalls ≤ 1 ∧
    (((System.init r (requests.map (fun q => Call.start q.1 q.2.1 q.2.2))).run
        schedule).r.mtx.locked = false →
      ((System.init r (requests.map (fun q => Call.start q.1 q.2.1 q.2.2))).run
        schedule).activeScriptCalls = 0) := by
  have hinv := run_lockInvariant schedule _ (init_lockInvariant r hfree requests)
  have hle := activeScriptCalls_le_holders
    ((System.init r (requests.map (fun q => Call.start q.1 q.2.1 q.2.2))).run schedule)
  unfold System.lockInvariant at hinv
  constructor
  · split at hinv <;> omega
  · intro hlock
    simp [hlock, -List.countP_eq_zero] at hinv
    omega

/-- C7, at a concrete input: three concurrent calls and a schedule after which the first
call has released the lock while the second waits to take it. -/
theorem Render_concurrent_single_script_call_witness :
    (sampleRenderer pageTemplate).mtx.locked = false ∧
    ((System.init (sampleRenderer pageTemplate)
        (sampleRequests.map (fun q => Call.start q.1 q.2.1 q.2.2))).run
        [0, 0, 1, 1, 2, 0, 0]).r.mtx.locked = false ∧
    ((System.init (sampleRenderer pageTemplate)
        (sampleRequests.map (fun q => Call.start q.1 q.2.1 q.2.2))).run
        [0, 0, 1, 1, 2, 0, 0]).activeScriptCalls ≤ 1 ∧
    ((System.init (sampleRenderer pageTemplate)
        (sampleRequests.map (fun q => Call.start q.1 q.2.1 q.2.2))).run
        [0, 0, 1, 1, 2, 0, 0]).activeScriptCalls = 0 :=
  have hfree : ((System.init (sampleRenderer pageTemplate)
      (sampleRequests.map (fun q => Call.start q.1 q.2.1 q.2.2))).run
      [0, 0, 1, 1, 2, 0, 0]).r.mtx.locked = false := by decide
  ⟨rfl, hfree,
    (Render_concurrent_single_script_call (sampleRenderer pageTemplate) rfl sampleRequests
      [0, 0, 1, 1, 2, 0, 0]).1,
    (Render_concurrent_single_script_call (sampleRenderer pageTemplate) rfl sampleRequests
      [0, 0, 1, 1, 2, 0, 0]).2 hfree⟩

/-- The scheduler can bring a call into its script function; a second call then waits
at its Lock however often it is scheduled, and enters once the first has unlocked; a
call with noreload = true runs to its end meanwhile. -/
theorem run_reaches_script_call :
    ((System.init (sampleRenderer pageTemplate)
        (sampleRequests.map (fun q => Call.start q.1 q.2.1 q.2.2))).run
        [0, 0]).activeScriptCalls = 1 ∧
    ((System.init (sampleRenderer pageTemplate)
        (sampleRequests.map (fun q => Call.start q.1 q.2.1 q.2.2))).run
        [0, 0, 1, 1, 1, 1, 2, 2, 2]).calls.map (fun c => c.pc) =
      [PC.inScript, PC.atLock, PC.returned] ∧
    ((System.init (sampleRenderer pageTemplate)
        (sampleRequests.map (fun q => Call.start q.1 q.2.1 q.2.2))).run
        [0, 0, 1, 1, 0, 0, 1]).calls.map (fun c => c.pc) =
      [PC.formatting, PC.inScript, PC.entry] := by
  decide

end render
